import Mathlib

/-!
Verification development for the healthcare-directory scraper repository.

The Python sources under `_scrapers/` are shallowly embedded here:
pure helpers (`clean_text`, `extract_phone`, `extract_email`,
`standardize_csv_output`, `parse_address`) become Lean functions on
`String`/`List Char`; the stateful crawl (`BaseHealthcareScraper.run`,
`extract_items`, `save_progress`, the progress loaders and the retrying
fetchers) becomes explicit state passing over oracles for the network
(`fetch : String → Option Doc`), the subclass detail hook
(`detailsOf : String → Details`) and connectivity checks. File contents
are modelled as explicit values (`Option (List Line)` for the progress
CSV, `List (List String)` for the processed-pages log); a missing file
is `none` and a raised exception is `Except.error`.
-/

/-! ## Python string primitives -/

/-- The whitespace class used by Python's `str.strip()` and the regex
class `\s` (restricted to its ASCII members, which is all that the
scraped data contains). -/
def isSpaceCh (c : Char) : Bool :=
  c = ' ' || c = '\t' || c = '\n' || c = '\r' || c = '\x0b' || c = '\x0c'

/-- `str.strip()` on a list of characters: drop whitespace at both ends. -/
def stripChars (l : List Char) : List Char :=
  ((l.dropWhile isSpaceCh).reverse.dropWhile isSpaceCh).reverse

/-- Python `s.strip()`. -/
def pyStrip (s : String) : String := ⟨stripChars s.data⟩

/-- Python `int(s)` for CSV fields: strips surrounding whitespace, then an
optional sign followed by one or more digits; any other shape raises
`ValueError`, modelled as `none`. -/
def digitsVal : List Char → Option Nat
  | [] => none
  | l => if l.all Char.isDigit then some (l.foldl (fun n c => n * 10 + (c.toNat - '0'.toNat)) 0) else none

/-- Python `int(·)` applied to a string (as in `int(row[1])` and
`int(link.text.strip())`). -/
def pyInt (s : String) : Option Int :=
  match stripChars s.data with
  | '-' :: rest => (digitsVal rest).map (fun n => -(n : Int))
  | '+' :: rest => (digitsVal rest).map (fun n => (n : Int))
  | rest => (digitsVal rest).map (fun n => (n : Int))

/-- `clean_text` from `common.py`: falsy input gives `""`, otherwise
strip, then replace each `\n`, `\r`, `\t` by a single space. -/
def clean_text (text : String) : String :=
  if text = "" then ""
  else ⟨(stripChars text.data).map (fun c => if c = '\n' || c = '\r' || c = '\t' then ' ' else c)⟩

/-! ## `extract_phone` (common.py)

The three Swiss phone regexes are sequences of literal characters,
`\d` and `\s?` tokens.  Because every `\s?` is immediately followed by
`\d` and no whitespace character is a digit, the greedy deterministic
matcher below coincides with the backtracking regex engine. -/

/-- One token of a Swiss-phone regex. -/
inductive PTok
  | lit (c : Char)
  | dg
  | optWs
deriving DecidableEq, Repr

/-- Match a phone pattern at the start of `l`, returning the length of
the match. -/
def runPat : List PTok → List Char → Option Nat
  | [], _ => some 0
  | PTok.lit c :: ps, d :: l => if d = c then (runPat ps l).map (· + 1) else none
  | PTok.dg :: ps, d :: l => if d.isDigit then (runPat ps l).map (· + 1) else none
  | PTok.optWs :: ps, d :: l =>
      if isSpaceCh d then (runPat ps l).map (· + 1) else runPat ps (d :: l)
  | PTok.optWs :: ps, [] => runPat ps []
  | _, [] => none

/-- `re.search` for a phone pattern: leftmost match, returned verbatim. -/
def searchPat (p : List PTok) : List Char → Option (List Char)
  | [] => match runPat p [] with
          | some n => some (([] : List Char).take n)
          | none => none
  | c :: t => match runPat p (c :: t) with
              | some n => some ((c :: t).take n)
              | none => searchPat p t

/-- `r'\+41\s?\d{2}\s?\d{3}\s?\d{2}\s?\d{2}'` -/
def phonePattern1 : List PTok :=
  [.lit '+', .lit '4', .lit '1', .optWs, .dg, .dg, .optWs, .dg, .dg, .dg,
   .optWs, .dg, .dg, .optWs, .dg, .dg]

/-- `r'0\d{2}\s?\d{3}\s?\d{2}\s?\d{2}'` -/
def phonePattern2 : List PTok :=
  [.lit '0', .dg, .dg, .optWs, .dg, .dg, .dg, .optWs, .dg, .dg, .optWs, .dg, .dg]

/-- `r'\d{3}\s?\d{2}\s?\d{2}'` -/
def phonePattern3 : List PTok :=
  [.dg, .dg, .dg, .optWs, .dg, .dg, .optWs, .dg, .dg]

/-- The `for pattern in patterns` loop: first pattern that has a match
anywhere in the text wins. -/
def firstSearch : List (List PTok) → List Char → Option (List Char)
  | [], _ => none
  | p :: ps, l =>
      match searchPat p l with
      | some m => some m
      | none => firstSearch ps l

/-- `extract_phone` from `common.py`: returns `match.group().strip()` of
the first matching pattern, `None` (here `none`) otherwise. -/
def extract_phone (text : String) : Option String :=
  (firstSearch [phonePattern1, phonePattern2, phonePattern3] text.data).map
    (fun m => (⟨stripChars m⟩ : String))

/-! ## `extract_email` (common.py)

`r'\b[A-Za-z0-9._%+-]+@[A-Za-z0-9.-]+\.[A-Z|a-z]{2,}\b'`, implemented
as a backtracking matcher that tries greedy (longest-first) lengths for
each `+`/`{2,}` repetition, exactly as the regex engine does. -/

/-- Regex word character (`\w`), used by the `\b` boundary. -/
def isWordCh (c : Char) : Bool := c.isAlpha || c.isDigit || c = '_'

/-- The local-part class `[A-Za-z0-9._%+-]`. -/
def localCh (c : Char) : Bool :=
  c.isAlpha || c.isDigit || c = '.' || c = '_' || c = '%' || c = '+' || c = '-'

/-- The domain class `[A-Za-z0-9.-]`. -/
def domainCh (c : Char) : Bool := c.isAlpha || c.isDigit || c = '.' || c = '-'

/-- The top-level-domain class `[A-Z|a-z]` (note the literal `|`). -/
def tldCh (c : Char) : Bool := c.isAlpha || c = '|'

/-- Try consumption lengths `n, n-1, …, 1` (greedy repetition with
backtracking); `k i` matches the remainder after `i` consumed characters. -/
def tryFrom (k : Nat → Option Nat) : Nat → Option Nat
  | 0 => none
  | n + 1 =>
      match k (n + 1) with
      | some r => some r
      | none => tryFrom k n

/-- Match `[A-Z|a-z]{2,}\b` at the start of `r3`, longest first. -/
def tldMatch (r3 : List Char) : Option Nat :=
  tryFrom (fun j =>
    if j < 2 then none
    else
      match (r3.take j).getLast? with
      | none => none
      | some lastc =>
          let nextWord := match r3.drop j with
            | [] => false
            | c :: _ => isWordCh c
          if isWordCh lastc = nextWord then none else some j)
    ((r3.takeWhile tldCh).length)

/-- Match `[A-Za-z0-9.-]+\.[A-Z|a-z]{2,}\b` at the start of `r2`. -/
def domTail (r2 : List Char) : Option Nat :=
  tryFrom (fun i =>
    match r2.drop i with
    | '.' :: r3 => (tldMatch r3).map (fun m => i + 1 + m)
    | _ => none)
    ((r2.takeWhile domainCh).length)

/-- Match the whole email regex at the start of `s`, `prevWord` telling
whether the character before `s` is a word character (for `\b`). -/
def emailMatchAt (prevWord : Bool) (s : List Char) : Option Nat :=
  match s with
  | [] => none
  | c :: _ =>
      if prevWord = isWordCh c then none
      else
        tryFrom (fun i =>
          match s.drop i with
          | '@' :: r2 => (domTail r2).map (fun m => i + 1 + m)
          | _ => none)
          ((s.takeWhile localCh).length)

/-- `re.search` scan for the email regex: leftmost starting position. -/
def emailSearch : Bool → List Char → Option (List Char)
  | _, [] => none
  | prevW, c :: rest =>
      match emailMatchAt prevW (c :: rest) with
      | some n => some ((c :: rest).take n)
      | none => emailSearch (isWordCh c) rest

/-- `extract_email` from `common.py`: `match.group()` of the leftmost
match, `None` (here `none`) otherwise. -/
def extract_email (text : String) : Option String :=
  (emailSearch false text.data).map (fun m => (⟨m⟩ : String))

example : extract_email "write to info@hospital.ch now" = some "info@hospital.ch" := by decide
example : extract_email "nothing here" = none := by decide
example : extract_phone "+41 44 123 45 67" = some "+41 44 123 45 67" := by decide
example : extract_phone "" = none := by decide
example : pyInt "  12 " = some 12 := by decide
example : pyInt "abc" = none := by decide

/-! ## `standardize_csv_output` (common.py) -/

/-- A Python dict of string fields (e.g. one raw scraper record or one
CSV row), as an association list; `rowGet row k v` is `row.get(k, v)`. -/
def rowGet (row : List (String × String)) (k v : String) : String :=
  match row.find? (fun p => p.1 == k) with
  | some p => p.2
  | none => v

/-- Whether the dict has the key at all (`k in row`). -/
def rowHas (row : List (String × String)) (k : String) : Bool :=
  (row.find? (fun p => p.1 == k)).isSome

/-- The standardized output record built by `standardize_csv_output`.
`phone` and `email` hold the results of `extract_phone` / `extract_email`,
which are `None` (here `none`) when no pattern matches; every other
field is a plain string. -/
structure StdRecord where
  name : String
  address : String
  city : String
  postal_code : String
  phone : Option String
  email : Option String
  website : String
  specialty : String
  type : String
  source_url : String
  scraped_at : String
deriving DecidableEq, Repr

/-- The loop body of `standardize_csv_output`: one standardized item. -/
def standardize_one (scraper_type : String) (item : List (String × String)) : StdRecord :=
  { name := clean_text (rowGet item "name" "")
    address := clean_text (rowGet item "address" "")
    city := clean_text (rowGet item "city" "")
    postal_code := clean_text (rowGet item "postal_code" "")
    phone := extract_phone (rowGet item "phone" "")
    email := extract_email (rowGet item "email" "")
    website := clean_text (rowGet item "website" "")
    specialty := clean_text (rowGet item "specialty" "")
    type := scraper_type
    source_url := clean_text (rowGet item "source_url" "")
    scraped_at := rowGet item "scraped_at" "" }

/-- `standardize_csv_output` from `common.py`. -/
def standardize_csv_output (data : List (List (String × String))) (scraper_type : String) :
    List StdRecord :=
  data.map (standardize_one scraper_type)

/-! ## `parse_address` (base_scraper.py) -/

/-- Result of `BaseHealthcareScraper.parse_address`. -/
structure ParsedAddress where
  street : String
  postal_code : String
  city : String
deriving DecidableEq, Repr

/-- Match `r'(\d{4})\s+(.*)'` at the start of `l`: four digits, a
maximal nonempty whitespace run, then `.*` (greedy up to a newline).
Returns `(group 1, group 2)`. -/
def matchPostalAt (l : List Char) : Option (List Char × List Char) :=
  let d := l.take 4
  if d.length = 4 && d.all Char.isDigit then
    let rest := l.drop 4
    let ws := rest.takeWhile isSpaceCh
    if ws.length ≥ 1 then
      let tail := rest.drop ws.length
      some (d, tail.takeWhile (fun c => c ≠ '\n'))
    else none
  else none

/-- `re.search` scan for the postal regex: leftmost match. -/
def postalScan : List Char → Option (List Char × List Char)
  | [] => none
  | c :: t =>
      match matchPostalAt (c :: t) with
      | some r => some r
      | none => postalScan t

/-- Python `s.split(", ")` on the character list: non-overlapping
left-to-right occurrences of the two-character separator. -/
def splitCommaSpace : List Char → List (List Char)
  | [] => [[]]
  | ',' :: ' ' :: rest => [] :: splitCommaSpace rest
  | c :: rest =>
      match splitCommaSpace rest with
      | [] => [[c]]
      | h :: r => (c :: h) :: r

/-- Python `address.split(", ")`. -/
def pySplitCommaSpace (s : String) : List String :=
  (splitCommaSpace s.data).map (fun l => (⟨l⟩ : String))

/-- `", " in address`, expressed through the split the code takes. -/
def hasCommaSep (s : String) : Bool := (splitCommaSpace s.data).length ≥ 2

/-- `BaseHealthcareScraper.parse_address`: note that when the guard
`address and ", " in address` fails, all three components stay `""`,
and that `address.split(", ")` splits on every separator while only
`parts[0]` and `parts[1]` are consulted. -/
def parse_address (address : String) : ParsedAddress :=
  if address ≠ "" ∧ hasCommaSep address then
    let parts := pySplitCommaSpace address
    let street := pyStrip (parts.headD "")
    if parts.length > 1 then
      let postal_city := pyStrip (parts.getD 1 "")
      match postalScan postal_city.data with
      | some (d, g2) => ⟨street, ⟨d⟩, pyStrip ⟨g2⟩⟩
      | none => ⟨street, "", postal_city⟩
    else ⟨street, "", ""⟩
  else ⟨"", "", ""⟩

example : parse_address "Bahnhofstrasse 1, 8001 Zürich" = ⟨"Bahnhofstrasse 1", "8001", "Zürich"⟩ := by decide
example : parse_address "Unknown Street" = ⟨"", "", ""⟩ := by decide
example : parse_address "a, 8001 Bern, c" = ⟨"a", "8001", "Bern"⟩ := by decide
example : parse_address "a, center of town" = ⟨"a", "", "center of town"⟩ := by decide

/-! ## Listing items and `extract_items` (base_scraper.py) -/

/-- The fields the abstract subclass hook `extract_item_details` returns
(`details.get('phone_number', '')`, `details.get('professions', [])`,
`details.get('email', '')`, `details.get('website')`). -/
structure Details where
  phone_number : String
  professions : List String
  email : String
  website : String
deriving DecidableEq, Repr

/-- The `<a>` element found first inside a listing item. -/
structure NameLink where
  text : String
  href : Option String
deriving DecidableEq, Repr

/-- One `div.directory-item` block: its first link (if any) and the text
of its `div.directory-item-text-normal` child (if any). -/
structure ItemBlock where
  nameLink : Option NameLink
  addressText : Option String
deriving DecidableEq, Repr

/-- `name_element.text.strip() if name_element else "Unknown"`. -/
def itemName (b : ItemBlock) : String :=
  match b.nameLink with
  | some l => pyStrip l.text
  | none => "Unknown"

/-- The resolved `item_url`: absolute URL when the link has an `href`,
`""` otherwise. -/
def itemUrl (b : ItemBlock) : String :=
  match b.nameLink with
  | some l =>
      match l.href with
      | some h => "https://www.onedoc.ch" ++ h
      | none => ""
  | none => ""

/-- The `item_data` dict built by `extract_items`, with its key order. -/
structure Record where
  name : String
  address : String
  street : String
  postal_code : String
  city : String
  phone : String
  email : String
  website : String
  specialty : String
  source_url : String
  scraped_at : String
  canton : String
deriving DecidableEq, Repr

/-- `list(data[0].keys())` for a `Record`-shaped dict. -/
def recordFieldnames : List String :=
  ["name", "address", "street", "postal_code", "city", "phone", "email",
   "website", "specialty", "source_url", "scraped_at", "canton"]

/-- The CSV row `csv.DictWriter` writes for a `Record` (and the dict
`csv.DictReader` reads back): the record's key/value pairs.  Note there
is no `"url"` key. -/
def Record.toRow (r : Record) : List (String × String) :=
  [("name", r.name), ("address", r.address), ("street", r.street),
   ("postal_code", r.postal_code), ("city", r.city), ("phone", r.phone),
   ("email", r.email), ("website", r.website), ("specialty", r.specialty),
   ("source_url", r.source_url), ("scraped_at", r.scraped_at), ("canton", r.canton)]

/-- What one call to `extract_items` produces: the extracted records,
the updated `self.scraped_urls` set, and the item URLs passed to the
`extract_item_details` hook (in order). -/
structure ExtractResult where
  records : List Record
  scraped : List String
  detailFetches : List String
deriving DecidableEq, Repr

/-- The `item_data` dict built for one new item: base fields from the
listing block, then enrichment through the `extract_item_details` hook
when `item_url` is nonempty (`phone`, `specialty` as the
`", ".join(professions)`, `email`, and `website` only when truthy). -/
def itemRecord (detailsOf : String → Details) (now canton : String) (b : ItemBlock) : Record :=
  let url := itemUrl b
  let address := match b.addressText with
    | some a => pyStrip a
    | none => ""
  let pa := parse_address address
  let base : Record :=
    ⟨itemName b, address, pa.street, pa.postal_code, pa.city,
     "", "", url, "", url, now, canton⟩
  if url ≠ "" then
    let d := detailsOf url
    { base with
        phone := d.phone_number
        specialty := String.intercalate ", " d.professions
        email := d.email
        website := if d.website ≠ "" then d.website else base.website }
  else base

/-- The detail-page fetch issued for one new item (none when the item
has no URL: `if item_url:` guards the hook call). -/
def itemFetches (b : ItemBlock) : List String :=
  if itemUrl b ≠ "" then [itemUrl b] else []

/-- The item loop of `BaseHealthcareScraper.extract_items`: an item
whose `item_url` is already in `scraped` is skipped before any detail
fetch; otherwise its record is built and its URL is added to `scraped`. -/
def extractItemsGo (detailsOf : String → Details) (now canton : String) :
    List ItemBlock → List String → ExtractResult
  | [], scraped => ⟨[], scraped, []⟩
  | b :: rest, scraped =>
      let url := itemUrl b
      if url ∈ scraped then extractItemsGo detailsOf now canton rest scraped
      else
        let res := extractItemsGo detailsOf now canton rest (url :: scraped)
        ⟨itemRecord detailsOf now canton b :: res.records, res.scraped,
         itemFetches b ++ res.detailFetches⟩

/-- `BaseHealthcareScraper.extract_items` (the `if not html` guard is
handled where the page is fetched; `html` is the page's item blocks). -/
def extract_items (detailsOf : String → Details) (now canton : String)
    (items : List ItemBlock) (scraped : List String) : ExtractResult :=
  extractItemsGo detailsOf now canton items scraped

/-- Folding `extract_items` over the successive pages of one run, with
the in-memory `scraped_urls` threaded through. -/
def extractPages (detailsOf : String → Details) (now : String) :
    List (String × List ItemBlock) → List String → List Record × List String
  | [], scraped => ([], scraped)
  | (canton, items) :: rest, scraped =>
      let r := extract_items detailsOf now canton items scraped
      let rs := extractPages detailsOf now rest r.scraped
      (r.records ++ rs.1, rs.2)

/-! ## The progress file and `save_progress` (base_scraper.py) -/

/-- One line of the progress CSV: the header written by
`writer.writeheader()` or one data row. -/
inductive Line
  | header (cols : List String)
  | data (r : Record)
deriving DecidableEq, Repr

/-- `BaseHealthcareScraper.save_progress`: empty batches return before
any file is opened; otherwise the file is opened in append mode
(creating it if missing), the header is written only when the file did
not exist, and the rows are appended. -/
def save_progress (file : Option (List Line)) (data : List Record) : Option (List Line) :=
  match data with
  | [] => file
  | d0 :: _ =>
      let fieldnames := (fun (_ : Record) => recordFieldnames) d0
      let withHeader :=
        match file with
        | none => [Line.header fieldnames]
        | some lines => lines
      some (withHeader ++ data.map Line.data)

/-- The data rows of a progress file. -/
def dataRows (file : Option (List Line)) : List Record :=
  (file.getD []).filterMap (fun l =>
    match l with
    | Line.data r => some r
    | _ => none)

/-- `BaseHealthcareScraper._load_scraped_urls`: a missing file gives the
empty set; otherwise every loaded row contributes `row.get('url', '')`.
Since `save_progress` writes no `"url"` column, this lookup is always
the default `""`. -/
def load_scraped_urls (file : Option (List Line)) : List String :=
  match file with
  | none => []
  | some lines =>
      ((some lines : Option (List Line)) |> dataRows).map (fun r => rowGet r.toRow "url" "")

/-! ## Progress loaders (`_load_processed_pages`, `CSVManager.load_from_csv`) -/

/-- `BaseHealthcareScraper._load_processed_pages` over the parsed rows of
the tracking CSV: rows with fewer than two columns are skipped, and
`int(row[1])` raises `ValueError` (modelled as `Except.error ()`) when
the page field is not an integer. -/
def load_processed_pages : List (List String) → Except Unit (List (String × Int))
  | [] => Except.ok []
  | row :: rest =>
      if row.length ≥ 2 then
        match pyInt (row.getD 1 "") with
        | none => Except.error ()
        | some p => (load_processed_pages rest).map (fun acc => (row.getD 0 "", p) :: acc)
      else load_processed_pages rest

/-- The `os.path.exists` guard around `_load_processed_pages`: a missing
file yields the empty mapping. -/
def load_processed_pages_file (file : Option (List (List String))) :
    Except Unit (List (String × Int)) :=
  match file with
  | none => Except.ok []
  | some rows => load_processed_pages rows

/-- `CSVManager.load_from_csv`: `none` models a missing file, and
`Except.error` models any exception while opening or reading; both give
`[]` because of the existence check and the `try/except` handler. -/
def load_from_csv (readResult : Option (Except Unit (List (List (String × String))))) :
    List (List (String × String)) :=
  match readResult with
  | none => []
  | some (Except.error _) => []
  | some (Except.ok rows) => rows

example : (extract_items (fun _ => ⟨"", [], "", ""⟩) "T" "ZH"
    [⟨some ⟨"A", some "/x"⟩, some "S, 8000 Z"⟩, ⟨some ⟨"B", some "/x"⟩, none⟩] []).records.length = 1 := by decide
example : load_processed_pages [["Zurich", "1"], ["x"], ["Bern", "2"]] =
    Except.ok [("Zurich", 1), ("Bern", 2)] := rfl
example : load_processed_pages [["Zurich", "abc"], ["Bern", "2"]] = Except.error () := rfl

/-! ## Pages, pagination and `get_max_page_number` (base_scraper.py) -/

/-- An `<a>` element of the `.top-states h2 a` canton list (its `href`
is accessed unconditionally by the code). -/
structure Anchor where
  href : String
  text : String
deriving DecidableEq, Repr

/-- A parsed HTML page: the canton anchors, the texts of the links in
`ul.pagination` (when that control exists), and the page's
`div.directory-item` blocks. -/
structure Doc where
  cantonAnchors : List Anchor
  pagination : Option (List String)
  items : List ItemBlock
deriving DecidableEq, Repr

/-- `extract_canton_links`: `(name, url)` pairs from the overview page. -/
def extract_canton_links (doc : Doc) : List (String × String) :=
  doc.cantonAnchors.map (fun a => (pyStrip a.text, "https://www.onedoc.ch" ++ a.href))

/-- `int(link.text.strip())` over the pagination links, keeping the
parseable ones. -/
def visiblePages (links : List String) : List Int :=
  links.filterMap pyInt

/-- `BaseHealthcareScraper.get_max_page_number`, instrumented with the
list of URLs it fetches (the single lookahead probe, when it runs):
missing html or pagination or no numeric links give 1; otherwise page
`highest_visible + 1` is probed and adopted exactly when it has at
least one listing item. -/
def get_max_page_number (fetch : String → Option Doc) (html : Option Doc)
    (canton_url : String) : Int × List String :=
  match html with
  | none => (1, [])
  | some doc =>
      match doc.pagination with
      | none => (1, [])
      | some links =>
          match (visiblePages links).max? with
          | none => (1, [])
          | some highest =>
              let test_page := highest + 1
              let test_url := canton_url ++ "?page=" ++ toString test_page
              match fetch test_url with
              | some d => if d.items ≠ [] then (test_page, [test_url]) else (highest, [test_url])
              | none => (highest, [test_url])

/-! ## The orchestrating `run` (base_scraper.py), instrumented -/

/-- One fetch performed by `run`, tagged with the call site that issued
it: the overview fetch, a canton (first) page fetch, the pagination
lookahead probe, or a fetch from the page loop (`?page=N`, `N ≥ 2`). -/
inductive TraceEntry
  | overview (url : String)
  | canton (name url : String)
  | probe (url : String)
  | page (name : String) (num : Int) (url : String)
deriving DecidableEq, Repr

/-- The URL a trace entry requested. -/
def traceUrl : TraceEntry → String
  | TraceEntry.overview u => u
  | TraceEntry.canton _ u => u
  | TraceEntry.probe u => u
  | TraceEntry.page _ _ u => u

/-- The mutable state of one `run`: the in-memory `scraped_urls`, the
progress CSV, the processed-pages log file, the accumulated
`all_items`, and the fetch trace.  `self.processed_pages` is only read
during a run (never updated in memory), so it stays a parameter. -/
structure RunState where
  scraped : List String
  progress : Option (List Line)
  pagesLog : List (String × Int)
  allItems : List Record
  trace : List TraceEntry
deriving DecidableEq, Repr

/-- `range(2, max_page + 1)`. -/
def pageRange (max_page : Int) : List Int :=
  (List.range (max_page - 1).toNat).map (fun i => (i : Int) + 2)

/-- The body of `for page_num in range(2, max_page + 1)`: an already
processed pair is skipped without any fetch; otherwise the page URL is
fetched, and on success its items are extracted, saved and the page is
marked processed. -/
def processPage (fetch : String → Option Doc) (detailsOf : String → Details)
    (now : String) (processed : List (String × Int)) (canton_name canton_url : String)
    (st : RunState) (p : Int) : RunState :=
  if (canton_name, p) ∈ processed then st
  else
    let page_url := canton_url ++ "?page=" ++ toString p
    let st1 := { st with trace := st.trace ++ [TraceEntry.page canton_name p page_url] }
    match fetch page_url with
    | none => st1
    | some d =>
        let er := extract_items detailsOf now canton_name d.items st1.scraped
        { st1 with
            scraped := er.scraped
            allItems := st1.allItems ++ er.records
            progress := save_progress st1.progress er.records
            pagesLog := st1.pagesLog ++ [(canton_name, p)] }

/-- The body of the canton loop of `run`.  When page 1 is not yet
processed the canton page is fetched, `get_max_page_number` runs (with
its probe), page 1 is extracted, saved and marked; when page 1 is
already processed the canton page is still fetched, only to recompute
`max_page`.  Then the page loop covers pages 2..max_page. -/
def processCanton (fetch : String → Option Doc) (detailsOf : String → Details)
    (now : String) (processed : List (String × Int)) (st : RunState)
    (canton : String × String) : RunState :=
  let canton_name := canton.1
  let canton_url := canton.2
  if (canton_name, (1 : Int)) ∈ processed then
    let st1 := { st with trace := st.trace ++ [TraceEntry.canton canton_name canton_url] }
    let pr :=
      match fetch canton_url with
      | some d => get_max_page_number fetch (some d) canton_url
      | none => (1, [])
    let st2 := { st1 with trace := st1.trace ++ pr.2.map TraceEntry.probe }
    (pageRange pr.1).foldl (processPage fetch detailsOf now processed canton_name canton_url) st2
  else
    let st1 := { st with trace := st.trace ++ [TraceEntry.canton canton_name canton_url] }
    match fetch canton_url with
    | none => st1
    | some d =>
        let pr := get_max_page_number fetch (some d) canton_url
        let st2 := { st1 with trace := st1.trace ++ pr.2.map TraceEntry.probe }
        let er := extract_items detailsOf now canton_name d.items st2.scraped
        let st3 :=
          { st2 with
              scraped := er.scraped
              allItems := st2.allItems ++ er.records
              progress := save_progress st2.progress er.records
              pagesLog := st2.pagesLog ++ [(canton_name, (1 : Int))] }
        (pageRange pr.1).foldl (processPage fetch detailsOf now processed canton_name canton_url) st3

/-- `BaseHealthcareScraper.run`: fetch the overview page (aborting the
run when it fails), walk the cantons, and finally standardize the
accumulated items (the second component models the final
`save_to_csv(standardize_csv_output(all_items, type), output_file)`). -/
def run (fetch : String → Option Doc) (detailsOf : String → Details) (now : String)
    (overview_url : String) (processed : List (String × Int)) (scraped0 : List String)
    (progress0 : Option (List Line)) (scraper_type : String) :
    RunState × List StdRecord :=
  let st0 : RunState := ⟨scraped0, progress0, [], [], [TraceEntry.overview overview_url]⟩
  match fetch overview_url with
  | none => (st0, [])
  | some doc =>
      let cantons := extract_canton_links doc
      let st := cantons.foldl (processCanton fetch detailsOf now processed) st0
      let fin :=
        if st.allItems ≠ [] then standardize_csv_output (st.allItems.map Record.toRow) scraper_type
        else []
      (st, fin)

/-! ## `ScraperSession.fetch_page` (common.py) -/

/-- One `time.sleep` performed by `fetch_page`, tagged by its origin:
the rate-limiting jitter before an attempt, or the exponential backoff
between failed attempts. -/
inductive SleepEntry
  | jitter (q : ℚ)
  | backoff (q : ℚ)
deriving DecidableEq, Repr

/-- The duration of a sleep. -/
def sleepVal : SleepEntry → ℚ
  | SleepEntry.jitter q => q
  | SleepEntry.backoff q => q

/-- The backoff sleeps of a trace, in order. -/
def backoffVals (l : List SleepEntry) : List ℚ :=
  l.filterMap (fun e =>
    match e with
    | SleepEntry.backoff q => some q
    | _ => none)

/-- Total time slept. -/
def sleepTotal (l : List SleepEntry) : ℚ := (l.map sleepVal).sum

/-- What one `fetch_page` call did: its return value, how many attempts
ran, how many connectivity checks ran, and every sleep in order. -/
structure FetchTrace (α : Type) where
  result : Option α
  attempts : Nat
  connChecks : Nat
  sleeps : List SleepEntry
deriving Repr

/-- The `for attempt in range(max_retries)` loop of
`ScraperSession.fetch_page`: each iteration sleeps the rate-limit
jitter, tries the request (`attemptOutcome attempt`), and on failure
sleeps `retry_delay * 2 ** attempt` unless this was the last attempt. -/
def fetchLoop {α : Type} (attemptOutcome : Nat → Option α) (jitter : Nat → ℚ)
    (retry_delay : ℚ) (max_retries : Nat) :
    Nat → Nat → List SleepEntry → Option α × Nat × List SleepEntry
  | attempt, 0, sleeps => (none, attempt, sleeps)
  | attempt, rem + 1, sleeps =>
      let sleeps1 := sleeps ++ [SleepEntry.jitter (jitter attempt)]
      match attemptOutcome attempt with
      | some r => (some r, attempt + 1, sleeps1)
      | none =>
          if attempt < max_retries - 1 then
            fetchLoop attemptOutcome jitter retry_delay max_retries (attempt + 1) rem
              (sleeps1 ++ [SleepEntry.backoff (retry_delay * 2 ^ attempt)])
          else
            fetchLoop attemptOutcome jitter retry_delay max_retries (attempt + 1) rem sleeps1

namespace ScraperSession

/-- `ScraperSession.fetch_page`: checks connectivity exactly once and
returns `None` immediately (no wait, no re-check) when it fails;
otherwise runs the retry loop and returns `None` after it is exhausted.
`connCheck` is the result of the single `check_internet_connection()`
call; `attemptOutcome i` is the outcome of `self.session.get` on
attempt `i`. -/
def fetch_page {α : Type} (connCheck : Bool) (attemptOutcome : Nat → Option α)
    (jitter : Nat → ℚ) (retry_delay : ℚ) (max_retries : Nat) : FetchTrace α :=
  if connCheck then
    let r := fetchLoop attemptOutcome jitter retry_delay max_retries 0 max_retries []
    ⟨r.1, r.2.1, 1, r.2.2⟩
  else ⟨none, 0, 1, []⟩

end ScraperSession

/-! ## `fetch_page` from groupclinics/groupy.py -/

/-- What one groupy `fetch_page` call did. -/
structure GroupyTrace (α : Type) where
  result : Option α
  attempts : Nat
  connChecks : Nat
  sleeps : List ℚ
deriving Repr

/-- The `for _ in range(12): time.sleep(10); if check: break` poll used
between failed attempts when connectivity is down.  Returns the next
connectivity-check index and the updated sleep list. -/
def connPoll (connSeq : Nat → Bool) : Nat → Nat → List ℚ → Nat × List ℚ
  | k, 0, sleeps => (k, sleeps)
  | k, n + 1, sleeps =>
      let sleeps1 := sleeps ++ [(10 : ℚ)]
      if connSeq k then (k + 1, sleeps1) else connPoll connSeq (k + 1) n sleeps1

/-- The attempt loop of groupy's `fetch_page`: no jitter, exponential
backoff `retry_delay * 2 ** attempt` before every non-final retry, and
after each backoff a connectivity check with the bounded poll above
when it fails. -/
def groupyLoop {α : Type} (connSeq : Nat → Bool) (attemptOutcome : Nat → Option α)
    (retry_delay : ℚ) (max_retries : Nat) :
    Nat → Nat → Nat → List ℚ → Option α × Nat × Nat × List ℚ
  | attempt, 0, k, sleeps => (none, attempt, k, sleeps)
  | attempt, rem + 1, k, sleeps =>
      match attemptOutcome attempt with
      | some r => (some r, attempt + 1, k, sleeps)
      | none =>
          if attempt < max_retries - 1 then
            let sleeps1 := sleeps ++ [retry_delay * 2 ^ attempt]
            if connSeq k then
              groupyLoop connSeq attemptOutcome retry_delay max_retries (attempt + 1) rem (k + 1) sleeps1
            else
              let pr := connPoll connSeq (k + 1) 12 sleeps1
              groupyLoop connSeq attemptOutcome retry_delay max_retries (attempt + 1) rem pr.1 pr.2
          else groupyLoop connSeq attemptOutcome retry_delay max_retries (attempt + 1) rem k sleeps

namespace Groupy

/-- `fetch_page` from `groupclinics/groupy.py`: when the first
connectivity check fails it sleeps `retry_delay` and re-checks exactly
once more, returning `None` if the network is still unreachable;
otherwise it runs the attempt loop.  `connSeq k` is the result of the
`k`-th `check_internet_connection()` call of this invocation. -/
def fetch_page {α : Type} (connSeq : Nat → Bool) (attemptOutcome : Nat → Option α)
    (retry_delay : ℚ) (max_retries : Nat) : GroupyTrace α :=
  if connSeq 0 then
    let r := groupyLoop connSeq attemptOutcome retry_delay max_retries 0 max_retries 1 []
    ⟨r.1, r.2.1, r.2.2.1, r.2.2.2⟩
  else if connSeq 1 then
    let r := groupyLoop connSeq attemptOutcome retry_delay max_retries 0 max_retries 2 [retry_delay]
    ⟨r.1, r.2.1, r.2.2.1, r.2.2.2⟩
  else ⟨none, 0, 2, [retry_delay]⟩

end Groupy

/-! ## Helper lemmas -/

lemma rowGet_of_rowHas_false (row : List (String × String)) (k v : String)
    (h : rowHas row k = false) : rowGet row k v = v := by
  unfold rowHas at h
  unfold rowGet
  cases hf : row.find? (fun p => p.1 == k) with
  | none => rfl
  | some p => rw [hf] at h; simp at h

lemma exceptMap_error_iff {α β : Type} (f : α → β) (e : Except Unit α) :
    e.map f = Except.error () ↔ e = Except.error () := by
  cases e <;> simp [Except.map]

/-! ## Claim theorems -/

/-- C2 counterexample: on a record with no fields at all,
`standardize_csv_output` sets `phone` and `email` to Python `None`
(`none`), not to the empty string, contradicting the claim that every
output field is a string with `""` for unmatched optional fields. -/
theorem standardize_missing_fields_yield_none :
    (standardize_csv_output [[]] "hospital").map StdRecord.phone = [none] ∧
    (standardize_csv_output [[]] "hospital").map StdRecord.email = [none] ∧
    ([none] : List (Option String)) ≠ [some ""] := by decide

/-- C2 (amended): `standardize_csv_output` is total; every output field
other than `phone`/`email` is a plain string that is `""` when the raw
field is missing; `phone` and `email` carry the `extract_phone` /
`extract_email` results, which are `None` — not `""` — when the raw
value is missing (and in general whenever no pattern matches). -/
theorem standardize_total_with_none_for_unmatched :
    ∀ (item : List (String × String)) (tag : String),
      (rowHas item "name" = false → (standardize_one tag item).name = "") ∧
      (rowHas item "address" = false → (standardize_one tag item).address = "") ∧
      (rowHas item "city" = false → (standardize_one tag item).city = "") ∧
      (rowHas item "postal_code" = false → (standardize_one tag item).postal_code = "") ∧
      (rowHas item "website" = false → (standardize_one tag item).website = "") ∧
      (rowHas item "specialty" = false → (standardize_one tag item).specialty = "") ∧
      (rowHas item "source_url" = false → (standardize_one tag item).source_url = "") ∧
      (rowHas item "scraped_at" = false → (standardize_one tag item).scraped_at = "") ∧
      (standardize_one tag item).type = tag ∧
      (standardize_one tag item).phone = extract_phone (rowGet item "phone" "") ∧
      (standardize_one tag item).email = extract_email (rowGet item "email" "") ∧
      (rowHas item "phone" = false → (standardize_one tag item).phone = none) ∧
      (rowHas item "email" = false → (standardize_one tag item).email = none) := by
  intro item tag
  refine ⟨fun h => ?_, fun h => ?_, fun h => ?_, fun h => ?_, fun h => ?_, fun h => ?_,
          fun h => ?_, fun h => ?_, rfl, rfl, rfl, fun h => ?_, fun h => ?_⟩
  all_goals simp [standardize_one, rowGet_of_rowHas_false _ _ _ h, clean_text, extract_phone,
    extract_email, emailSearch]
  all_goals rfl

/-- C2 witness: the amended statement applied to the empty record. -/
theorem standardize_total_with_none_for_unmatched_witness :
    (standardize_one "hospital" []).name = "" ∧ (standardize_one "hospital" []).phone = none := by
  have h := standardize_total_with_none_for_unmatched [] "hospital"
  exact ⟨h.1 rfl, h.2.2.2.2.2.2.2.2.2.2.2.1 rfl⟩

/-- C3 counterexample: for the comma-less input `"Unknown Street"` the
code leaves `street` empty instead of returning the full string as the
claim (and the spec's example) requires. -/
theorem parse_address_no_comma_drops_street :
    (parse_address "Unknown Street").street ≠ "Unknown Street" ∧
    parse_address "Unknown Street" = ⟨"", "", ""⟩ := by decide

/-- C3 (amended): `parse_address` returns all-empty components whenever
the input lacks `", "`; otherwise it splits on every `", "` and uses
only the first part (street) and the second part (searched for
`<4 digits><whitespace><rest>`, the leftmost occurrence giving postal
code and city, the whole part becoming the city otherwise); the spec's
positive example holds, and parts after the second are ignored. -/
theorem parse_address_characterization :
    parse_address "Bahnhofstrasse 1, 8001 Zürich" = ⟨"Bahnhofstrasse 1", "8001", "Zürich"⟩ ∧
    parse_address "a, 8001 Bern, c" = ⟨"a", "8001", "Bern"⟩ ∧
    parse_address "a, center of town" = ⟨"a", "", "center of town"⟩ ∧
    (∀ s : String, hasCommaSep s = false → parse_address s = ⟨"", "", ""⟩) := by
  refine ⟨by decide, by decide, by decide, fun s h => ?_⟩
  unfold parse_address
  rw [if_neg]
  intro hc
  rw [h] at hc
  exact Bool.false_ne_true hc.2

/-- C3 witness: the amended no-separator case at `"Unknown Street"`. -/
theorem parse_address_characterization_witness :
    parse_address "Unknown Street" = ⟨"", "", ""⟩ :=
  parse_address_characterization.2.2.2 "Unknown Street" (by decide)

/-- C10: `save_progress` with an empty batch leaves the file exactly as
it was (missing stays missing, contents stay untouched, no header), and
the header is written exactly on the first non-empty batch appended to
a fresh file — appends to an existing file add data rows only. -/
theorem save_progress_empty_noop_and_header_once :
    (∀ file : Option (List Line), save_progress file [] = file) ∧
    (∀ (r : Record) (rest : List Record),
       save_progress none (r :: rest) =
         some (Line.header recordFieldnames :: (r :: rest).map Line.data)) ∧
    (∀ (lines : List Line) (r : Record) (rest : List Record),
       save_progress (some lines) (r :: rest) = some (lines ++ (r :: rest).map Line.data)) :=
  ⟨fun _ => rfl, fun _ _ => rfl, fun _ _ _ => rfl⟩

/-- C8 counterexample: a tracking-file row whose page field is not an
integer makes `_load_processed_pages` raise (`int(row[1])` →
`ValueError`), aborting the load instead of skipping the row — the
later well-formed row `["Bern", "2"]` is lost. -/
theorem load_processed_pages_aborts_on_bad_int :
    load_processed_pages [["Zurich", "abc"], ["Bern", "2"]] = Except.error () ∧
    (Except.error () : Except Unit (List (String × Int))) ≠ Except.ok [] :=
  ⟨rfl, fun h => Except.noConfusion h⟩

/-- C8 (amended): `load_from_csv` is total (missing file and any caught
exception yield `[]`), and `_load_processed_pages` does skip rows with
fewer than two columns, but it raises — aborting the load — exactly
when some row with at least two columns has a non-integer page field. -/
theorem progress_loading_characterization :
    (load_from_csv none = [] ∧ load_from_csv (some (Except.error ())) = []) ∧
    (∀ (pre post : List (List String)) (a : String),
       load_processed_pages (pre ++ [a] :: post) = load_processed_pages (pre ++ post) ∧
       load_processed_pages (pre ++ [] :: post) = load_processed_pages (pre ++ post)) ∧
    (∀ rows : List (List String),
       load_processed_pages rows = Except.error () ↔
         ∃ row ∈ rows, 2 ≤ row.length ∧ pyInt (row.getD 1 "") = none) := by
  refine ⟨⟨rfl, rfl⟩, ?_, ?_⟩
  · intro pre post a
    induction pre with
    | nil => exact ⟨rfl, rfl⟩
    | cons hd tl ih =>
        by_cases h : hd.length ≥ 2
        · cases hp : pyInt (hd.getD 1 "") <;>
            simp [load_processed_pages, h, hp, ih.1, ih.2]
        · simp [load_processed_pages, h, ih.1, ih.2]
  · intro rows
    induction rows with
    | nil => simp [load_processed_pages]
    | cons row rest ih =>
        by_cases h : row.length ≥ 2
        · cases hp : pyInt (row.getD 1 "") with
          | none =>
              simp only [load_processed_pages, h, if_pos, hp]
              constructor
              · intro _
                exact ⟨row, List.mem_cons_self row rest, h, hp⟩
              · intro _
                trivial
          | some p =>
              simp only [load_processed_pages, h, if_pos, hp, exceptMap_error_iff, ih]
              constructor
              · intro ⟨r, hr, h2, hint⟩
                exact ⟨r, List.mem_cons_of_mem _ hr, h2, hint⟩
              · rintro ⟨r, hr, h2, hint⟩
                rcases List.mem_cons.mp hr with heq | hmem
                · subst heq; rw [hp] at hint; exact absurd hint (by simp)
                · exact ⟨r, hmem, h2, hint⟩
        · simp only [load_processed_pages, h, if_neg, ih, not_false_iff]
          constructor
          · rintro ⟨r, hr, h2, hint⟩
            exact ⟨r, List.mem_cons_of_mem _ hr, h2, hint⟩
          · rintro ⟨r, hr, h2, hint⟩
            rcases List.mem_cons.mp hr with heq | hmem
            · subst heq; exact absurd h2 h
            · exact ⟨r, hmem, h2, hint⟩

/-- C4: with visible pagination links `{1,2,3}`, `get_max_page_number`
probes exactly `canton_url?page=4`, returns 4 when the probe page has
at least one listing item, and returns 3 when it has none or the probe
fetch fails. -/
theorem max_page_single_lookahead :
    ∀ (fetch : String → Option Doc) (u : String) (anchors : List Anchor) (its : List ItemBlock),
      (get_max_page_number fetch (some ⟨anchors, some ["1", "2", "3"], its⟩) u).2 =
        [u ++ "?page=" ++ "4"] ∧
      (get_max_page_number fetch (some ⟨anchors, some ["1", "2", "3"], its⟩) u).1 =
        (match fetch (u ++ "?page=" ++ "4") with
         | some d => if d.items ≠ [] then (4 : Int) else 3
         | none => 3) := by
  intro fetch u anchors its
  have key : get_max_page_number fetch (some ⟨anchors, some ["1", "2", "3"], its⟩) u =
      (match fetch (u ++ "?page=" ++ "4") with
       | some d =>
           if d.items ≠ [] then ((4 : Int), [u ++ "?page=" ++ "4"])
           else ((3 : Int), [u ++ "?page=" ++ "4"])
       | none => ((3 : Int), [u ++ "?page=" ++ "4"])) := rfl
  rw [key]
  cases fetch (u ++ "?page=" ++ "4") with
  | none => exact ⟨rfl, rfl⟩
  | some d =>
      by_cases hd : d.items = [] <;> simp [hd]

/-! ## A two-run scenario for the cross-run dedup claim -/

/-- A detail hook returning empty enrichment (any subclass would do). -/
def detailsZero : String → Details := fun _ => ⟨"", [], "", ""⟩

/-- One listing item that appears identically in both runs. -/
def itemX : ItemBlock := ⟨some ⟨"Praxis A", some "/x"⟩, some "Weg 1, 8000 Zurich"⟩

/-- Its resolved `item_url`. -/
def urlX : String := "https://www.onedoc.ch/x"

/-- The progress file after run 1 (fresh start: no progress file). -/
def c1File1 : Option (List Line) :=
  save_progress none (extract_items detailsZero "T" "ZH" [itemX] (load_scraped_urls none)).records

/-- The progress file after run 2 sees the same listing item again. -/
def c1File2 : Option (List Line) :=
  save_progress c1File1 (extract_items detailsZero "T" "ZH" [itemX] (load_scraped_urls c1File1)).records

/-- C1: the cross-run dedup is broken. `_load_scraped_urls` reads
`row.get('url', '')` but `save_progress` writes no `"url"` column, so
after run 1 the loaded set is `{""}`, the same item is not dropped in
run 2, and the progress file ends with two rows with the same
`item_url` — the claimed invariant fails on the code. -/
theorem progress_file_duplicate_item_url :
    load_scraped_urls c1File1 = [""] ∧
    (dataRows c1File2).map Record.source_url = [urlX, urlX] ∧
    ¬ ((dataRows c1File2).map Record.source_url).Nodup := by decide

/-- C7 counterexample: `ScraperSession.fetch_page` with connectivity
down performs exactly one connectivity check and gives up with no sleep
and no second check, contradicting the claimed wait-and-re-check-once
behavior. -/
theorem session_fetch_no_reconnect_check :
    (ScraperSession.fetch_page (α := Unit) false (fun _ => none) (fun _ => 0) 10 3).result = none ∧
    (ScraperSession.fetch_page (α := Unit) false (fun _ => none) (fun _ => 0) 10 3).connChecks = 1 ∧
    (ScraperSession.fetch_page (α := Unit) false (fun _ => none) (fun _ => 0) 10 3).sleeps = [] ∧
    (1 : Nat) ≠ 2 := by
  exact ⟨rfl, rfl, rfl, by decide⟩

/-- C7 (amended): only groupy's `fetch_page` has the wait-and-re-check
behavior — it sleeps `retry_delay` after a failed connectivity check
and re-checks exactly once more before giving up — while the shared
`ScraperSession.fetch_page` gives up immediately after a single failed
check, with no wait and no re-check. -/
theorem connectivity_check_behavior :
    (∀ (α : Type) (att : Nat → Option α) (jit : Nat → ℚ) (rd : ℚ) (mr : Nat),
       ScraperSession.fetch_page false att jit rd mr =
         ⟨none, 0, 1, []⟩) ∧
    (∀ (α : Type) (connSeq : Nat → Bool) (att : Nat → Option α) (rd : ℚ) (mr : Nat),
       connSeq 0 = false → connSeq 1 = false →
         Groupy.fetch_page connSeq att rd mr = ⟨none, 0, 2, [rd]⟩) := by
  constructor
  · intro α att jit rd mr
    rfl
  · intro α connSeq att rd mr h0 h1
    unfold Groupy.fetch_page
    rw [h0, h1]
    rfl

/-- C7 witness: the amended groupy clause at a concretely dead network. -/
theorem connectivity_check_behavior_witness :
    Groupy.fetch_page (α := Unit) (fun _ => false) (fun _ => none) 10 3 = ⟨none, 0, 2, [10]⟩ :=
  connectivity_check_behavior.2 Unit (fun _ => false) (fun _ => none) 10 3 rfl rfl

/-! ## Backoff lemmas for the retry loop -/

/-- The sleeps `fetchLoop` performs from attempt `a` with `rem`
remaining iterations when every attempt fails, assuming
`a + rem = max_retries`: a jitter before every attempt and a backoff
after every attempt but the last. -/
def sleepsFrom (jitter : Nat → ℚ) (retry_delay : ℚ) : Nat → Nat → List SleepEntry
  | _, 0 => []
  | a, 1 => [SleepEntry.jitter (jitter a)]
  | a, n + 2 =>
      SleepEntry.jitter (jitter a) :: SleepEntry.backoff (retry_delay * 2 ^ a) ::
        sleepsFrom jitter retry_delay (a + 1) (n + 1)

lemma fetchLoop_zero {α : Type} (att : Nat → Option α) (jit : Nat → ℚ) (rd : ℚ)
    (mr a : Nat) (sleeps : List SleepEntry) :
    fetchLoop att jit rd mr a 0 sleeps = (none, a, sleeps) := rfl

lemma fetchLoop_succ_fail {α : Type} (att : Nat → Option α) (jit : Nat → ℚ) (rd : ℚ)
    (mr a rem : Nat) (sleeps : List SleepEntry) (h : att a = none) :
    fetchLoop att jit rd mr a (rem + 1) sleeps =
      (if a < mr - 1 then
        fetchLoop att jit rd mr (a + 1) rem
          (sleeps ++ [SleepEntry.jitter (jit a)] ++ [SleepEntry.backoff (rd * 2 ^ a)])
      else fetchLoop att jit rd mr (a + 1) rem (sleeps ++ [SleepEntry.jitter (jit a)])) := by
  rw [fetchLoop, h]

lemma fetchLoop_all_fail {α : Type} (att : Nat → Option α) (jit : Nat → ℚ)
    (rd : ℚ) (mr : Nat) (hatt : ∀ i, att i = none) :
    ∀ (rem a : Nat) (sleeps : List SleepEntry), a + rem = mr →
      fetchLoop att jit rd mr a rem sleeps = (none, mr, sleeps ++ sleepsFrom jit rd a rem) := by
  intro rem
  induction rem with
  | zero =>
      intro a sleeps ha
      have haa : a = mr := by omega
      subst haa
      rw [fetchLoop_zero]
      simp [sleepsFrom]
  | succ n ih =>
      intro a sleeps ha
      rw [fetchLoop_succ_fail att jit rd mr a n sleeps (hatt a)]
      rcases n with _ | m
      · rw [if_neg (by omega : ¬ a < mr - 1), fetchLoop_zero]
        have haa : a + 1 = mr := by omega
        rw [haa]
        simp [sleepsFrom]
      · rw [if_pos (by omega : a < mr - 1)]
        have e : sleeps ++ [SleepEntry.jitter (jit a)] ++ [SleepEntry.backoff (rd * 2 ^ a)] =
            sleeps ++ [SleepEntry.jitter (jit a), SleepEntry.backoff (rd * 2 ^ a)] := by simp
        rw [e, ih (a + 1) _ (by omega)]
        simp [sleepsFrom]

lemma backoffVals_cons_jitter (q : ℚ) (l : List SleepEntry) :
    backoffVals (SleepEntry.jitter q :: l) = backoffVals l := rfl

lemma backoffVals_cons_backoff (q : ℚ) (l : List SleepEntry) :
    backoffVals (SleepEntry.backoff q :: l) = q :: backoffVals l := rfl

lemma backoffVals_sleepsFrom (jit : Nat → ℚ) (rd : ℚ) :
    ∀ (n a : Nat), backoffVals (sleepsFrom jit rd a n) =
      (List.range' a (n - 1)).map (fun i => rd * 2 ^ i)
  | 0, a => by simp [sleepsFrom, backoffVals]
  | 1, a => by simp [sleepsFrom, backoffVals]
  | n + 2, a => by
      rw [sleepsFrom, backoffVals_cons_jitter, backoffVals_cons_backoff,
        backoffVals_sleepsFrom jit rd (n + 1) (a + 1)]
      simp [List.range']

lemma jitter_mem_sleepsFrom (jit : Nat → ℚ) (rd : ℚ) :
    ∀ (n a : Nat) (q : ℚ), SleepEntry.jitter q ∈ sleepsFrom jit rd a n → ∃ i, q = jit i
  | 0, a, q => by simp [sleepsFrom]
  | 1, a, q => by
      intro h
      simp [sleepsFrom] at h
      exact ⟨a, h⟩
  | n + 2, a, q => by
      intro h
      rw [sleepsFrom] at h
      rcases List.mem_cons.mp h with h1 | h2
      · exact ⟨a, by injection h1⟩
      · rcases List.mem_cons.mp h2 with h3 | h4
        · exact absurd h3 (by simp)
        · exact jitter_mem_sleepsFrom jit rd (n + 1) (a + 1) q h4

lemma backoff_sum_le_sleepTotal :
    ∀ l : List SleepEntry, (∀ q : ℚ, SleepEntry.jitter q ∈ l → 0 ≤ q) →
      (backoffVals l).sum ≤ sleepTotal l
  | [], _ => by simp [backoffVals, sleepTotal]
  | SleepEntry.jitter q :: t, h => by
      have ht := backoff_sum_le_sleepTotal t (fun q' hq' => h q' (List.mem_cons_of_mem _ hq'))
      have hq : 0 ≤ q := h q (List.mem_cons_self _ _)
      simp only [backoffVals, List.filterMap_cons, sleepTotal, List.map_cons, List.sum_cons, sleepVal]
      calc (backoffVals t).sum ≤ sleepTotal t := ht
        _ ≤ q + sleepTotal t := le_add_of_nonneg_left hq
  | SleepEntry.backoff q :: t, h => by
      have ht := backoff_sum_le_sleepTotal t (fun q' hq' => h q' (List.mem_cons_of_mem _ hq'))
      simp only [backoffVals, List.filterMap_cons, sleepTotal, List.map_cons, List.sum_cons, sleepVal]
      exact add_le_add_left ht q

/-- C6: for a URL whose every attempt fails (network up), `fetch_page`
returns `None` — not an exception — after exactly `max_retries`
attempts; the backoff sleeps between consecutive attempts are exactly
`retry_delay * 2 ** attempt` for attempts `0 .. max_retries - 2`, and
the total time slept is at least the sum of that backoff schedule. -/
theorem fetch_page_retries_exhaust_backoff :
    ∀ {α : Type} (att : Nat → Option α) (jit : Nat → ℚ) (rd : ℚ) (mr : Nat),
      (∀ i, att i = none) → 0 ≤ rd → (∀ i, 0 ≤ jit i) →
      (ScraperSession.fetch_page true att jit rd mr).result = none ∧
      (ScraperSession.fetch_page true att jit rd mr).attempts = mr ∧
      backoffVals (ScraperSession.fetch_page true att jit rd mr).sleeps =
        (List.range (mr - 1)).map (fun i => rd * 2 ^ i) ∧
      ((List.range (mr - 1)).map (fun i => rd * 2 ^ i)).sum ≤
        sleepTotal (ScraperSession.fetch_page true att jit rd mr).sleeps := by
  intro α att jit rd mr hatt hrd hjit
  have hloop := fetchLoop_all_fail att jit rd mr hatt mr 0 [] (by omega)
  have hfp : ScraperSession.fetch_page true att jit rd mr =
      ⟨none, mr, 1, sleepsFrom jit rd 0 mr⟩ := by
    simp [ScraperSession.fetch_page, hloop]
  rw [hfp]
  have hb : backoffVals (sleepsFrom jit rd 0 mr) =
      (List.range (mr - 1)).map (fun i => rd * 2 ^ i) := by
    rw [backoffVals_sleepsFrom, List.range_eq_range']
  refine ⟨rfl, rfl, hb, ?_⟩
  rw [← hb]
  exact backoff_sum_le_sleepTotal _ (fun q hq => by
    obtain ⟨i, hi⟩ := jitter_mem_sleepsFrom jit rd mr 0 q hq
    exact hi ▸ hjit i)

/-- C6 witness: the theorem at a concretely always-failing fetch with
`retry_delay = 10` and `max_retries = 3`. -/
theorem fetch_page_retries_exhaust_backoff_witness :
    (ScraperSession.fetch_page (α := Unit) true (fun _ => none) (fun _ => 0) 10 3).result = none ∧
    (ScraperSession.fetch_page (α := Unit) true (fun _ => none) (fun _ => 0) 10 3).attempts = 3 ∧
    backoffVals (ScraperSession.fetch_page (α := Unit) true (fun _ => none) (fun _ => 0) 10 3).sleeps =
      (List.range (3 - 1)).map (fun i => (10 : ℚ) * 2 ^ i) ∧
    ((List.range (3 - 1)).map (fun i => (10 : ℚ) * 2 ^ i)).sum ≤
      sleepTotal (ScraperSession.fetch_page (α := Unit) true (fun _ => none) (fun _ => 0) 10 3).sleeps :=
  fetch_page_retries_exhaust_backoff (α := Unit) (fun _ => none) (fun _ => 0) 10 3
    (fun _ => rfl) (by norm_num) (fun _ => le_refl 0)

/-! ## Dedup invariants of `extract_items` -/

lemma itemRecord_source_url (d : String → Details) (now canton : String) (b : ItemBlock) :
    (itemRecord d now canton b).source_url = itemUrl b := by
  simp only [itemRecord]
  split <;> rfl

lemma extractItemsGo_nil (d : String → Details) (now canton : String) (s : List String) :
    extractItemsGo d now canton [] s = ⟨[], s, []⟩ := rfl

lemma extractItemsGo_cons_mem (d : String → Details) (now canton : String)
    (b : ItemBlock) (rest : List ItemBlock) (s : List String) (h : itemUrl b ∈ s) :
    extractItemsGo d now canton (b :: rest) s = extractItemsGo d now canton rest s := by
  simp only [extractItemsGo]
  simp [h]

lemma extractItemsGo_cons_new (d : String → Details) (now canton : String)
    (b : ItemBlock) (rest : List ItemBlock) (s : List String) (h : itemUrl b ∉ s) :
    extractItemsGo d now canton (b :: rest) s =
      ⟨itemRecord d now canton b :: (extractItemsGo d now canton rest (itemUrl b :: s)).records,
       (extractItemsGo d now canton rest (itemUrl b :: s)).scraped,
       itemFetches b ++ (extractItemsGo d now canton rest (itemUrl b :: s)).detailFetches⟩ := by
  simp only [extractItemsGo]
  simp [h]

lemma extractItemsGo_scraped_mono (d : String → Details) (now canton : String) :
    ∀ (items : List ItemBlock) (s : List String) (x : String), x ∈ s →
      x ∈ (extractItemsGo d now canton items s).scraped
  | [], s, x => by
      intro hx
      rw [extractItemsGo_nil]
      exact hx
  | b :: rest, s, x => by
      intro hx
      by_cases h : itemUrl b ∈ s
      · rw [extractItemsGo_cons_mem d now canton b rest s h]
        exact extractItemsGo_scraped_mono d now canton rest s x hx
      · rw [extractItemsGo_cons_new d now canton b rest s h]
        exact extractItemsGo_scraped_mono d now canton rest (itemUrl b :: s) x
          (List.mem_cons_of_mem _ hx)

lemma extractItemsGo_records_urls (d : String → Details) (now canton : String) :
    ∀ (items : List ItemBlock) (s : List String) (r : Record),
      r ∈ (extractItemsGo d now canton items s).records →
      r.source_url ∈ (extractItemsGo d now canton items s).scraped ∧ r.source_url ∉ s
  | [], s, r => by
      rw [extractItemsGo_nil]
      intro hr
      exact absurd hr (List.not_mem_nil r)
  | b :: rest, s, r => by
      intro hr
      by_cases h : itemUrl b ∈ s
      · rw [extractItemsGo_cons_mem d now canton b rest s h] at hr ⊢
        exact extractItemsGo_records_urls d now canton rest s r hr
      · rw [extractItemsGo_cons_new d now canton b rest s h] at hr ⊢
        rcases List.mem_cons.mp hr with h1 | h2
        · subst h1
          rw [itemRecord_source_url]
          exact ⟨extractItemsGo_scraped_mono d now canton rest (itemUrl b :: s) (itemUrl b)
            (List.mem_cons_self _ _), h⟩
        · have hrec := extractItemsGo_records_urls d now canton rest (itemUrl b :: s) r h2
          exact ⟨hrec.1, fun hmem => hrec.2 (List.mem_cons_of_mem _ hmem)⟩

lemma extractItemsGo_nodup (d : String → Details) (now canton : String) :
    ∀ (items : List ItemBlock) (s : List String),
      ((extractItemsGo d now canton items s).records.map Record.source_url).Nodup
  | [], s => by
      rw [extractItemsGo_nil]
      simp
  | b :: rest, s => by
      by_cases h : itemUrl b ∈ s
      · rw [extractItemsGo_cons_mem d now canton b rest s h]
        exact extractItemsGo_nodup d now canton rest s
      · rw [extractItemsGo_cons_new d now canton b rest s h]
        simp only [List.map_cons]
        rw [List.nodup_cons]
        constructor
        · intro hmem
          obtain ⟨r, hr, hru⟩ := List.mem_map.mp hmem
          have hnotin := (extractItemsGo_records_urls d now canton rest (itemUrl b :: s) r hr).2
          rw [itemRecord_source_url] at hru
          rw [hru] at hnotin
          exact hnotin (List.mem_cons_self _ _)
        · exact extractItemsGo_nodup d now canton rest (itemUrl b :: s)

lemma extractPages_scraped_mono (d : String → Details) (now : String) :
    ∀ (pages : List (String × List ItemBlock)) (s : List String) (x : String),
      x ∈ s → x ∈ (extractPages d now pages s).2
  | [], s, x => by
      intro hx
      exact hx
  | (c, items) :: rest, s, x => by
      intro hx
      exact extractPages_scraped_mono d now rest _ x
        (extractItemsGo_scraped_mono d now c items s x hx)

lemma extractPages_records (d : String → Details) (now : String) :
    ∀ (pages : List (String × List ItemBlock)) (s : List String) (r : Record),
      r ∈ (extractPages d now pages s).1 →
      r.source_url ∈ (extractPages d now pages s).2 ∧ r.source_url ∉ s
  | [], s, r => by
      intro hr
      exact absurd hr (List.not_mem_nil r)
  | (c, items) :: rest, s, r => by
      intro hr
      rcases List.mem_append.mp hr with h1 | h2
      · have h := extractItemsGo_records_urls d now c items s r h1
        exact ⟨extractPages_scraped_mono d now rest _ _ h.1, h.2⟩
      · have h := extractPages_records d now rest _ r h2
        exact ⟨h.1, fun hs => h.2 (extractItemsGo_scraped_mono d now c items s _ hs)⟩

lemma extractPages_nodup (d : String → Details) (now : String) :
    ∀ (pages : List (String × List ItemBlock)) (s : List String),
      ((extractPages d now pages s).1.map Record.source_url).Nodup
  | [], s => by simp [extractPages]
  | (c, items) :: rest, s => by
      have heq : (extractPages d now ((c, items) :: rest) s).1 =
          (extract_items d now c items s).records ++
            (extractPages d now rest (extract_items d now c items s).scraped).1 := rfl
      rw [heq, List.map_append, List.nodup_append]
      refine ⟨extractItemsGo_nodup d now c items s, extractPages_nodup d now rest _, ?_⟩
      intro u hu1 hu2
      obtain ⟨r1, hr1, hu1e⟩ := List.mem_map.mp hu1
      obtain ⟨r2, hr2, hu2e⟩ := List.mem_map.mp hu2
      have h1 := (extractItemsGo_records_urls d now c items s r1 hr1).1
      have h2 := (extractPages_records d now rest _ r2 hr2).2
      rw [hu1e] at h1
      rw [hu2e] at h2
      exact h2 h1

/-- C9: within a single run, the records produced across all pages have
pairwise distinct `item_url`s (`source_url`): each produced URL is added
to the in-memory `scraped_urls` at once, and any later item carrying a
URL already in that set is skipped, for every starting set, page list
and detail hook. -/
theorem extract_items_run_nodup :
    ∀ (detailsOf : String → Details) (now : String)
      (pages : List (String × List ItemBlock)) (scraped0 : List String),
      ((extractPages detailsOf now pages scraped0).1.map Record.source_url).Nodup :=
  fun d now pages s0 => extractPages_nodup d now pages s0

/-! ## Resume behavior of `run` -/

lemma foldl_preserve {σ β : Type} (f : σ → β → σ) (P : σ → Prop)
    (hf : ∀ s b, P s → P (f s b)) : ∀ (l : List β) (s : σ), P s → P (l.foldl f s)
  | [], _ => fun hs => hs
  | b :: t, s => fun hs => foldl_preserve f P hf t (f s b) (hf s b hs)

lemma processPage_preserve (fetch : String → Option Doc) (d : String → Details)
    (now : String) (processed : List (String × Int)) (cn cu : String)
    (c : String) (p : Int) (u : String) (hp : (c, p) ∈ processed) :
    ∀ (st : RunState) (q : Int), TraceEntry.page c p u ∉ st.trace →
      TraceEntry.page c p u ∉ (processPage fetch d now processed cn cu st q).trace := by
  intro st q hst
  unfold processPage
  by_cases hq : (cn, q) ∈ processed
  · rw [if_pos hq]
    exact hst
  · rw [if_neg hq]
    have hnotin : TraceEntry.page c p u ∉
        st.trace ++ [TraceEntry.page cn q (cu ++ "?page=" ++ toString q)] := by
      intro hmem
      rcases List.mem_append.mp hmem with h1 | h2
      · exact hst h1
      · have heq := List.mem_singleton.mp h2
        injection heq with e1 e2 e3
        exact hq (e1 ▸ e2 ▸ hp)
    dsimp only
    cases hf : fetch (cu ++ "?page=" ++ toString q) with
    | none => exact hnotin
    | some dd => exact hnotin

lemma page_notin_canton_probe (c : String) (p : Int) (u : String)
    (t : List TraceEntry) (cn cu : String) (pr : List String)
    (h : TraceEntry.page c p u ∉ t) :
    TraceEntry.page c p u ∉ (t ++ [TraceEntry.canton cn cu]) ++ pr.map TraceEntry.probe := by
  intro hmem
  rcases List.mem_append.mp hmem with h1 | h2
  · rcases List.mem_append.mp h1 with h3 | h4
    · exact h h3
    · have := List.mem_singleton.mp h4
      exact TraceEntry.noConfusion this
  · obtain ⟨x, _, hx⟩ := List.mem_map.mp h2
    exact TraceEntry.noConfusion hx

lemma processCanton_preserve (fetch : String → Option Doc) (d : String → Details)
    (now : String) (processed : List (String × Int))
    (c : String) (p : Int) (u : String) (hp : (c, p) ∈ processed) :
    ∀ (st : RunState) (canton : String × String), TraceEntry.page c p u ∉ st.trace →
      TraceEntry.page c p u ∉ (processCanton fetch d now processed st canton).trace := by
  intro st canton hst
  unfold processCanton
  by_cases h1 : (canton.1, (1 : Int)) ∈ processed
  · rw [if_pos h1]
    dsimp only
    cases hf : fetch canton.2 with
    | none =>
        apply foldl_preserve _ (fun s => TraceEntry.page c p u ∉ s.trace)
          (fun s q hs => processPage_preserve fetch d now processed canton.1 canton.2 c p u hp s q hs)
        exact page_notin_canton_probe c p u st.trace canton.1 canton.2 _ hst
    | some dd =>
        apply foldl_preserve _ (fun s => TraceEntry.page c p u ∉ s.trace)
          (fun s q hs => processPage_preserve fetch d now processed canton.1 canton.2 c p u hp s q hs)
        exact page_notin_canton_probe c p u st.trace canton.1 canton.2 _ hst
  · rw [if_neg h1]
    dsimp only
    cases hf : fetch canton.2 with
    | none =>
        intro hmem
        rcases List.mem_append.mp hmem with h2 | h3
        · exact hst h2
        · exact TraceEntry.noConfusion (List.mem_singleton.mp h3)
    | some dd =>
        apply foldl_preserve _ (fun s => TraceEntry.page c p u ∉ s.trace)
          (fun s q hs => processPage_preserve fetch d now processed canton.1 canton.2 c p u hp s q hs)
        exact page_notin_canton_probe c p u st.trace canton.1 canton.2 _ hst

/-- C5 (amended): a `(category, page)` pair with `page ≥ 2` that is
marked processed is never fetched by the page loop of a resumed run —
no `page`-tagged fetch of it appears in the trace (its URL could at
most be requested by the pagination lookahead probe); page 1 of a
processed category is still fetched, as the category URL, to recompute
`max_page` (see the accompanying counterexample). -/
theorem resumed_processed_pages_not_refetched :
    ∀ (fetch : String → Option Doc) (detailsOf : String → Details) (now ov : String)
      (processed : List (String × Int)) (scraped0 : List String)
      (progress0 : Option (List Line)) (tag : String) (c : String) (p : Int) (u : String),
      (c, p) ∈ processed → 2 ≤ p →
      TraceEntry.page c p u ∉
        (run fetch detailsOf now ov processed scraped0 progress0 tag).1.trace := by
  intro fetch detailsOf now ov processed scraped0 progress0 tag c p u hp _
  unfold run
  cases hf : fetch ov with
  | none =>
      intro hmem
      exact TraceEntry.noConfusion (List.mem_singleton.mp hmem)
  | some doc =>
      apply foldl_preserve _ (fun s => TraceEntry.page c p u ∉ s.trace)
        (fun s cn hs => processCanton_preserve fetch detailsOf now processed c p u hp s cn hs)
      intro hmem
      exact TraceEntry.noConfusion (List.mem_singleton.mp hmem)

/-- C5 witness: the amended theorem at a concrete processed pair. -/
theorem resumed_processed_pages_not_refetched_witness :
    TraceEntry.page "Z" 2 "x" ∉
      (run (fun _ => none) detailsZero "T" "OV" [("Z", 2)] [] none "t").1.trace :=
  resumed_processed_pages_not_refetched (fun _ => none) detailsZero "T" "OV"
    [("Z", 2)] [] none "t" "Z" 2 "x" (by decide) (by decide)

/-- A concrete world for the resume counterexample: an overview page
with one canton `Z`, whose canton page has no pagination and no items. -/
def fetchC5 : String → Option Doc := fun u =>
  if u = "OV" then some ⟨[⟨"/z", "Z"⟩], none, []⟩
  else if u = "https://www.onedoc.ch/z" then some ⟨[], none, []⟩
  else none

/-- C5 counterexample: with `("Z", 1)` marked processed, the run still
fetches `https://www.onedoc.ch/z` — page 1's URL — to recompute
`max_page`, so a processed page 1 is not "skipped entirely, with no
re-fetch of its page URL" (though nothing is re-extracted or re-saved). -/
theorem processed_page_one_still_fetched :
    (("Z", (1 : Int)) ∈ [(("Z" : String), (1 : Int))]) ∧
    (run fetchC5 detailsZero "T" "OV" [("Z", 1)] [] none "t").1.trace =
      [TraceEntry.overview "OV", TraceEntry.canton "Z" "https://www.onedoc.ch/z"] ∧
    "https://www.onedoc.ch/z" ∈
      ((run fetchC5 detailsZero "T" "OV" [("Z", 1)] [] none "t").1.trace).map traceUrl ∧
    (run fetchC5 detailsZero "T" "OV" [("Z", 1)] [] none "t").1.progress = none ∧
    (run fetchC5 detailsZero "T" "OV" [("Z", 1)] [] none "t").1.allItems = [] := by decide
